import Mathlib

/-!
Verification development for the brain.com.ua product-scraper repository.

The repository contains three near-duplicate extraction scripts
(`modules/1_get_data.py` using Playwright, `modules/1_get_listings.py` using
Selenium, `modules/1_parse_data.py` using requests + BeautifulSoup) and a
Django persistence layer (`parser_app/models.py`).  This file gives a shallow
embedding of the extraction and persistence logic of those scripts:

* Python string primitives used by the scripts (`str.strip`, `str.split(',')`,
  `', '.join`, `str.replace`) modelled on `List Char`;
* the specification-row flattening of `extract_specifications`;
* a DOM model (rose tree as a mutual inductive so that all functions are
  structurally recursive and kernel-evaluable) with the XPath and
  BeautifulSoup queries the three `get_by_label` / `extract_specifications`
  variants perform;
* the tolerant text accessors (`safe_find_by_xpath`, `safe`) with the exact
  `except` clauses of each script modelled as a set of caught exception kinds;
* `extract_basic_info`, `extract_product_details`, `extract_photos`,
  `parse_product_page`, the missing-link gate of `main`, and the
  `Product.objects.update_or_create`-based `save_product` upsert.
-/

/-! ### Python string primitives

`modules/1_parse_data.py` (and the two browser variants) use
`str.strip()`, `str.split(',')`, `', '.join(...)` and `str.replace`.
They are modelled on `List Char`.  `isPySpace` is the set of characters
Python's `str.strip()` / `str.isspace()` treats as whitespace. -/

/-- Characters stripped by Python's `str.strip()` (Unicode whitespace). -/
def isPySpace (c : Char) : Bool :=
  c = ' ' || c = '\t' || c = '\n' || c = '\r' || c = '\x0b' || c = '\x0c' ||
  c = '\x1c' || c = '\x1d' || c = '\x1e' || c = '\x1f' || c = '\x85' ||
  c = ' ' || c = ' ' || (' ' ≤ c && c ≤ ' ') ||
  c = ' ' || c = ' ' || c = ' ' || c = ' ' || c = '　'

/-- Python `str.strip()` on a list of characters: drop leading and trailing
whitespace. -/
def pyStripL (s : List Char) : List Char :=
  ((s.dropWhile isPySpace).reverse.dropWhile isPySpace).reverse

/-- Python `str.strip()`. -/
def pyStrip (s : String) : String := ⟨pyStripL s.data⟩

/-- Python `str.split(',')`: split at every comma; empty segments are kept,
and the empty string yields one empty segment. -/
def splitComma : List Char → List (List Char)
  | [] => [[]]
  | c :: rest =>
    if c = ',' then [] :: splitComma rest
    else
      match splitComma rest with
      | [] => [[c]]
      | p :: ps => (c :: p) :: ps

/-- Python `', '.join(parts)`: interleave the fixed separator `", "` used by
`extract_specifications`. -/
def joinCommaSpace : List (List Char) → List Char
  | [] => []
  | [p] => p
  | p :: q :: r => p ++ ',' :: ' ' :: joinCommaSpace (q :: r)

/-- Python `value.replace('\xa0', ' ')`: map every no-break space to a
regular space. -/
def replaceNbspL (s : List Char) : List Char :=
  s.map (fun c => if c = ' ' then ' ' else c)

/-- The specification-value cleaning of `extract_specifications`
(`modules/1_parse_data.py` line 168 and its two duplicates):
`', '.join(x.strip() for x in value.replace('\xa0', ' ').split(',') if x.strip())`,
on a list of characters. -/
def cleanL (v : List Char) : List Char :=
  joinCommaSpace
    ((((splitComma (replaceNbspL v)).map pyStripL).filter (fun p => p ≠ [])))

/-- The specification-value cleaning rule, on `String`. -/
def cleanValue (s : String) : String := ⟨cleanL s.data⟩

/-- Python `price.replace(' ', '')` used by `extract_basic_info`: remove every
ASCII space (and nothing else). -/
def removeSpaces (s : String) : String := ⟨s.data.filter (fun c => c ≠ ' ')⟩

/-- Substring test `subListAt n h`: does `n` occur as a prefix of `h`? -/
def subListAt : List Char → List Char → Bool
  | [], _ => true
  | _ :: _, [] => false
  | a :: as, b :: bs => a = b && subListAt as bs

/-- Substring containment on character lists (XPath `contains`). -/
def hasSubList (needle : List Char) : List Char → Bool
  | [] => needle.isEmpty
  | c :: rest => subListAt needle (c :: rest) || hasSubList needle rest

/-- XPath `contains(s, sub)`. -/
def strContainsSub (s sub : String) : Bool := hasSubList sub.data s.data

/-! ### The specification mapping (a Python `dict`)

`extract_specifications` builds a Python `dict` mapping label strings to
cleaned values (or `None`).  A `dict` is modelled as an insertion-ordered
association list with unique-key insert (overwrite in place, else append). -/

/-- The specification mapping: Python `dict[str, str | None]`. -/
abbrev SpecMap : Type := List (String × Option String)

/-- Python `d[k] = v` on a `dict`: overwrite an existing key in place,
otherwise append. -/
def dictInsert (m : SpecMap) (k : String) (v : Option String) : SpecMap :=
  if m.any (fun p => p.1 = k) then
    m.map (fun p => if p.1 = k then (k, v) else p)
  else m ++ [(k, v)]

/-- Python `d.get(k)` membership view: `some v` when `k` is a key of the
`dict` (with stored value `v`), `none` when it is not a key. -/
def dictFind (m : SpecMap) (k : String) : Option (Option String) :=
  (m.find? (fun p => p.1 = k)).map (fun p => p.2)

/-- The per-row body of `extract_specifications`
(`modules/1_parse_data.py` lines 163-173, identical in the two browser
variants): given the texts of the row's direct-child spans, a two-span row
stores `label.strip() -> cleaned value`, a one-span row stores
`label.strip() -> None`, and any other span count stores nothing. -/
def processRowTexts (m : SpecMap) (spans : List String) : SpecMap :=
  match spans with
  | [l, v] => dictInsert m (pyStrip l) (some (cleanValue (pyStrip v)))
  | [l] => dictInsert m (pyStrip l) none
  | _ => m

/-! ### Generic helper lemmas -/

/-! ### Claim C3 -/

/-! ### Claim C7 -/

/-! ### The DOM model

A page is a rose tree of element and text nodes.  The tree is encoded as a
mutual inductive (`Dom` / `DomList`) so that every query below is compiled by
structural recursion and evaluates inside the kernel. -/

mutual
inductive Dom where
  | txt (s : String)
  | elem (tag : String) (children : DomList)
  deriving Repr
inductive DomList where
  | nil
  | cons (d : Dom) (ds : DomList)
  deriving Repr
end

mutual
def domBeq : Dom → Dom → Bool
  | .txt s, .txt t => s == t
  | .elem t1 cs1, .elem t2 cs2 => t1 == t2 && domListBeq cs1 cs2
  | .txt _, .elem _ _ => false
  | .elem _ _, .txt _ => false
def domListBeq : DomList → DomList → Bool
  | .nil, .nil => true
  | .cons d ds, .cons e es => domBeq d e && domListBeq ds es
  | .nil, .cons _ _ => false
  | .cons _ _, .nil => false
end

instance : BEq Dom := ⟨domBeq⟩

def DomList.toList : DomList → List Dom
  | .nil => []
  | .cons d ds => d :: ds.toList

/-- The direct children of a node. -/
def childrenOf : Dom → List Dom
  | .txt _ => []
  | .elem _ cs => cs.toList

/-- Is the node an element with the given tag? -/
def isTag (t : String) : Dom → Bool
  | .txt _ => false
  | .elem td _ => td == t

mutual
/-- Concatenated text of all text nodes below a node, in document order.
This models both BeautifulSoup's `.text` and the rendered text returned by
Playwright's `inner_text` / Selenium's `.text` (rendering effects are
abstracted away: the page snapshot is the static tree). -/
def textD : Dom → String
  | .txt s => s
  | .elem _ cs => textF cs
def textF : DomList → String
  | .nil => ""
  | .cons d ds => textD d ++ textF ds
end

mutual
/-- Pre-order (document-order) list of the node and all its descendants. -/
def preorderD : Dom → List Dom
  | .txt s => [.txt s]
  | .elem t cs => .elem t cs :: preorderF cs
/-- Pre-order (document-order) list of all nodes of a forest. -/
def preorderF : DomList → List Dom
  | .nil => []
  | .cons d ds => preorderD d ++ preorderF ds
end

mutual
/-- Document-order list of the descendants of a node, each paired with its
list of following siblings (XPath `following-sibling` axis). -/
def nwsD : Dom → List (Dom × List Dom)
  | .txt _ => []
  | .elem _ cs => nwsF cs
def nwsF : DomList → List (Dom × List Dom)
  | .nil => []
  | .cons d ds => (d, ds.toList) :: (nwsD d ++ nwsF ds)
end

/-- Document-order list of every node of the page (root included), paired
with its following siblings (the root has none). -/
def nodesWithSibs (root : Dom) : List (Dom × List Dom) :=
  (root, []) :: nwsD root

/-- The string-value of `text()` in an XPath predicate: the first text-node
child of the element, or the empty string when there is none. -/
def firstTextChildStr (d : Dom) : String :=
  match (childrenOf d).find? (fun c => match c with | .txt _ => true | .elem _ _ => false) with
  | some (.txt s) => s
  | _ => ""

/-- The label-span predicate of the browser variants' XPath
`//span[contains(text(), label)]`. -/
def isLabelSpan (label : String) (d : Dom) : Bool :=
  isTag "span" d && strContainsSub (firstTextChildStr d) label

/-- The node-set of `//span[contains(text(), label)]/following-sibling::span[1]`
(in document order), then `.first`: for each matching label span its first
following-sibling span is in the set; the first set member in document order
is returned.  This is the element located by `get_by_label` in
`modules/1_get_data.py` lines 67-68 and `modules/1_get_listings.py`
lines 71-75. -/
def xpathLabelSibling (root : Dom) (label : String) : Option Dom :=
  let all := nodesWithSibs root
  let targets := all.filterMap (fun p =>
    if isLabelSpan label p.1 then p.2.find? (isTag "span") else none)
  (all.map (fun p => p.1)).find? (fun n => targets.contains n)

/-- `get_by_label` of the Playwright script (`modules/1_get_data.py`
lines 54-77): locate the element by the XPath above, read `inner_text`, and
return `text.strip()` when the raw text is non-empty, else `None`; every
lookup failure has already been modelled as the absent case of the locate
step (the `except` clause catches every exception). -/
def pw_get_by_label (root : Dom) (label : String) : Option String :=
  match xpathLabelSibling root label with
  | none => none
  | some n =>
    let text := textD n
    if text ≠ "" then some (pyStrip text) else none

/-- `get_by_label` of the Selenium script (`modules/1_get_listings.py`
lines 58-87): same XPath; read `element.text.strip()`, return it when
non-empty, otherwise fall back to the JavaScript `innerText` (the same text
in the static-tree model) and return its `strip()` when the raw fallback is
non-empty, else `None`. -/
def sel_get_by_label (root : Dom) (label : String) : Option String :=
  match xpathLabelSibling root label with
  | none => none
  | some n =>
    let text := pyStrip (textD n)
    if text ≠ "" then some text
    else
      let textJs := textD n
      if textJs ≠ "" then some (pyStrip textJs) else none

/-- BeautifulSoup's `.string`: the single text child of a tag, descending
through single-child tags; `None` when the tag has zero or several
children. -/
def bsString : Dom → Option String
  | .txt s => some s
  | .elem _ (.cons c .nil) => bsString c
  | .elem _ .nil => none
  | .elem _ (.cons _ (.cons _ _)) => none

/-- Drop everything up to and including the first node satisfying `p`;
`none` when no node satisfies it. -/
def afterFirst (p : Dom → Bool) : List Dom → Option (List Dom)
  | [] => none
  | d :: rest => if p d then some rest else afterFirst p rest

/-- `get_by_label` of the requests/BeautifulSoup script
(`modules/1_parse_data.py` lines 33-48):
`soup.find('span', string=label_text)` finds the first span in document
order whose `.string` equals the label exactly; `label.find_next('span')`
returns the first span strictly after it in document order (descendants
included); the result is that span's `.text.strip()`. -/
def bs_get_by_label (root : Dom) (label : String) : Option String :=
  match afterFirst (fun n => isTag "span" n && (bsString n == some label))
      (preorderD root) with
  | none => none
  | some rest =>
    match rest.find? (isTag "span") with
    | none => none
    | some n => some (pyStrip (textD n))

/-! ### Claim C5 -/

/-- A page on which the static-HTML variant disagrees with the two browser
variants: the label span is followed (as sibling) first by a `div` that
contains a nested span, then by a sibling span. -/
def c5page : Dom :=
  .elem "div" (.cons (.elem "span" (.cons (.txt "Колір") .nil))
    (.cons (.elem "div" (.cons (.elem "span" (.cons (.txt "Nested") .nil)) .nil))
      (.cons (.elem "span" (.cons (.txt "Sib") .nil)) .nil)))

/-! ### Claim C6 — row location inside `extract_specifications` -/

mutual
/-- Document-order list of all proper descendants of a node, each with its
parent's tag and its depth below the node (children at depth 1).  Used to
evaluate the relative XPath `.//div/div` of the browser variants. -/
def descD : Dom → Nat → List (Dom × String × Nat)
  | .txt _, _ => []
  | .elem t cs, dep => descF t (dep + 1) cs
def descF : String → Nat → DomList → List (Dom × String × Nat)
  | _, _, .nil => []
  | pt, dep, .cons d ds => (d, pt, dep) :: (descD d dep ++ descF pt dep ds)
end

/-- The item rows of one category block in the browser variants
(`modules/1_get_data.py` line 185, `modules/1_get_listings.py` line 196):
`category.locator("xpath=.//div/div")` selects every `div` whose parent is a
`div` anywhere below the category block (depth at least 2), in document
order. -/
def pwCategoryRows (cat : Dom) : List Dom :=
  ((descD cat 0).filter (fun x =>
    isTag "div" x.1 && (x.2.1 == "div") && decide (2 ≤ x.2.2))).map (fun x => x.1)

/-- `category.find('div')` of the static variant
(`modules/1_parse_data.py` line 156): the first `div` among the block's
descendants in document order. -/
def bsFirstDescDiv : Dom → Option Dom
  | .txt _ => none
  | .elem _ cs => (preorderF cs).find? (isTag "div")

/-- The item rows of one category block in the static variant
(`modules/1_parse_data.py` lines 156-161): the direct `div` children of the
block's first descendant `div` (`find_all('div', recursive=False)`); a block
with no inner `div` is skipped. -/
def bsCategoryRows (cat : Dom) : List Dom :=
  match bsFirstDescDiv cat with
  | none => []
  | some container => (childrenOf container).filter (isTag "div")

/-- The texts of a row's direct-child spans (`./span` in the browser
variants, `find_all('span', recursive=False)` in the static one). -/
def rowSpanTexts (row : Dom) : List String :=
  ((childrenOf row).filter (isTag "span")).map textD

/-- Process one row of the specification table. -/
def processRowDom (m : SpecMap) (row : Dom) : SpecMap :=
  processRowTexts m (rowSpanTexts row)

/-- `extract_specifications` of the browser variants, applied to the located
category blocks. -/
def pw_extract_specifications (cats : List Dom) : SpecMap :=
  ((cats.map pwCategoryRows).flatten).foldl processRowDom []

/-- `extract_specifications` of the static variant, applied to the located
category blocks. -/
def bs_extract_specifications (cats : List Dom) : SpecMap :=
  ((cats.map bsCategoryRows).flatten).foldl processRowDom []

/-- A category block whose single row contains a nested `div`-in-`div`
holding a deeper (label, value) pair. -/
def c6cat : Dom :=
  .elem "div" (.cons
    (.elem "div" (.cons
      (.elem "div" (.cons (.elem "span" (.cons (.txt "Memory") .nil))
        (.cons (.elem "span" (.cons (.txt "64 GB") .nil))
          (.cons (.elem "div" (.cons
            (.elem "div" (.cons (.elem "span" (.cons (.txt "DeepL") .nil))
              (.cons (.elem "span" (.cons (.txt "DeepV") .nil)) .nil))) .nil))
            .nil)))) .nil)) .nil)

/-- The inner row of `c6catB`: two direct spans and a `p` wrapping a deeper
span. -/
def rowB : Dom :=
  .elem "div" (.cons (.elem "span" (.cons (.txt "L") .nil))
    (.cons (.elem "span" (.cons (.txt "V") .nil))
      (.cons (.elem "p" (.cons (.elem "span" (.cons (.txt "SpanDeep") .nil)) .nil))
        .nil)))

/-- The inner container of `c6catB`. -/
def containerB : Dom :=
  .elem "div" (.cons rowB
    (.cons (.elem "div" (.cons
      (.elem "div" (.cons (.elem "span" (.cons (.txt "DeepL2") .nil))
        (.cons (.elem "span" (.cons (.txt "DeepV2") .nil)) .nil))) .nil))
      .nil))

/-- A category block with a normal row, a span nested inside a non-`div`
child of that row, and a pair nested two `div` levels down. -/
def c6catB : Dom := .elem "div" (.cons containerB .nil)

/-! ### Claim C1 — the tolerant text accessors

The `try` body of each accessor either produces the raw text(s) it read or
raises an exception of the driver's error domain; the `except` clause of the
source decides which exceptions are swallowed.  A result of `.error e` means
the exception `e` propagates to the caller. -/

/-- Exceptions the Playwright calls inside `safe_find_by_xpath` /
`get_by_label` can raise: the timeout error (also produced by a zero-match
wait) or any other resolution error.  All of them derive from Python's
`Exception`. -/
inductive PwExc where
  | timeoutError
  | otherResolutionError
  deriving DecidableEq, Repr

/-- The `except (PlaywrightTimeoutError, Exception)` clause of
`modules/1_get_data.py` lines 50-51: every exception is caught. -/
def pwCaught : PwExc → Bool := fun _ => true

/-- Outcome of the `try` body of the Playwright `safe_find_by_xpath`:
either the element was found and `inner_text` returned `text`, or some call
raised. -/
inductive PwTry where
  | ok (text : String)
  | raise (e : PwExc)
  deriving DecidableEq, Repr

/-- `safe_find_by_xpath` of `modules/1_get_data.py` lines 27-51: on success
return `text.strip()` when the raw text is non-empty else `None`; on any
exception return `None` (the catch set is universal). -/
def pw_safe_find_by_xpath (t : PwTry) : Except PwExc (Option String) :=
  match t with
  | .ok text => .ok (if text ≠ "" then some (pyStrip text) else none)
  | .raise e => if pwCaught e then .ok none else .error e

/-- Exceptions the Selenium calls inside `safe_find_by_xpath` /
`get_by_label` can raise: `TimeoutException` from the bounded wait (also on
zero matches), `NoSuchElementException` from a direct lookup, and other
resolution errors such as `StaleElementReferenceException` (the element
detached between the wait and the `.text` read) or
`InvalidSelectorException` (a malformed XPath). -/
inductive SelExc where
  | noSuchElementException
  | timeoutException
  | staleElementReferenceException
  | invalidSelectorException
  deriving DecidableEq, Repr

/-- The `except (NoSuchElementException, TimeoutException)` clause of
`modules/1_get_listings.py` lines 54-55: only those two kinds are caught. -/
def selCaught : SelExc → Bool
  | .noSuchElementException => true
  | .timeoutException => true
  | .staleElementReferenceException => false
  | .invalidSelectorException => false

/-- Outcome of the `try` body of the Selenium `safe_find_by_xpath`: the
element was found and the two reads returned `text` (from `.text`) and
`textJs` (from the JavaScript `innerText`), or some call raised. -/
inductive SelTry where
  | ok (text : String) (textJs : String)
  | raise (e : SelExc)
  deriving DecidableEq, Repr

/-- `safe_find_by_xpath` of `modules/1_get_listings.py` lines 26-55: on
success return `element.text.strip()` when non-empty, else the stripped
JavaScript `innerText` when the raw fallback is non-empty, else `None`; on
an exception return `None` only when the exception is in the catch set,
otherwise it propagates. -/
def sel_safe_find_by_xpath (t : SelTry) : Except SelExc (Option String) :=
  match t with
  | .ok text textJs =>
    .ok (if pyStrip text ≠ "" then some (pyStrip text)
      else if textJs ≠ "" then some (pyStrip textJs) else none)
  | .raise e => if selCaught e then .ok none else .error e

/-- `safe` of `modules/1_parse_data.py` lines 17-30: `find_func()` returns
the found element's text, or `None` when the chain of `find` calls resolved
nothing — in which case reading `.text` raises `AttributeError`, which the
`except AttributeError` clause turns into `None`.  On success the stripped
text is returned (even when empty). -/
def safe (found : Option String) : Option String :=
  match found with
  | none => none
  | some t => some (pyStrip t)

/-! ### Claim C4 — `extract_basic_info` and the price fields -/

/-- The raw inner texts behind the five fixed locators of
`extract_basic_info` (`none` = the node is absent / the lookup failed). -/
structure BasicPage where
  titleText : Option String
  regularPriceText : Option String
  discountPriceText : Option String
  productCodeText : Option String
  reviewCountText : Option String
  deriving DecidableEq, Repr

/-- The Text Accessor applied to one locator of `extract_basic_info`:
absent node gives `None`; a present node's raw text gives `text.strip()`
when the raw text is non-empty, else `None` (the Playwright
`safe_find_by_xpath`, success path). -/
def safeTextOf (raw : Option String) : Option String :=
  match raw with
  | none => none
  | some t => if t ≠ "" then some (pyStrip t) else none

/-- The basic-information record. -/
structure BasicInfo where
  title : Option String
  regular_price : Option String
  discount_price : Option String
  product_code : Option String
  review_count : Option String
  deriving DecidableEq, Repr

/-- `extract_basic_info` (`modules/1_get_data.py` lines 80-104, duplicated
in the other two scripts): the two price fields are read through the Text
Accessor and then `', '`-free: `price.replace(' ', '')` removes every ASCII
space; a falsy (empty) accessor result gives `None`. -/
def extract_basic_info (pg : BasicPage) : BasicInfo :=
  let regular_price := safeTextOf pg.regularPriceText
  let discount_price := safeTextOf pg.discountPriceText
  { title := safeTextOf pg.titleText
    regular_price := match regular_price with
      | some t => if t ≠ "" then some (removeSpaces t) else none
      | none => none
    discount_price := match discount_price with
      | some t => if t ≠ "" then some (removeSpaces t) else none
      | none => none
    product_code := safeTextOf pg.productCodeText
    review_count := safeTextOf pg.reviewCountText }

/-- A page whose price nodes are present and use no-break spaces as
thousands separators. -/
def c4page : BasicPage :=
  { titleText := some "Phone X"
    regularPriceText := some "15 000 ₴"
    discountPriceText := some "9 999 ₴"
    productCodeText := some "ABC123"
    reviewCountText := none }

/-! ### Claim C2 — `extract_product_details` and the specs-control click -/

/-- State of the "show all specifications" control
(`//div[@id='br-pr-7']//button[@class='br-prs-button']`). -/
inductive SpecsControl where
  | present
  | absentControl
  | notInteractive
  deriving DecidableEq, Repr

/-- The page as seen by the Playwright `parse_product_page` pipeline.
`labelLookup` is the (tolerant, never-raising) result of `get_by_label` for
a given label once the control has been activated. -/
structure PwProductPage where
  specsControl : SpecsControl
  labelLookup : String → Option String
  basic : BasicPage
  photoSrcs : List (Option String)
  specCategories : List Dom

/-- The six attribute fields of `extract_product_details`. -/
structure Details where
  vendor : Option String
  color : Option String
  memory_volume : Option String
  series : Option String
  screen_diagonal : Option String
  screen_resolution : Option String
  deriving DecidableEq, Repr

/-- Errors the unguarded control interaction can raise:
`scroll_into_view_if_needed` / the locator wait times out when the control
is absent, and `click` fails when it is present but not interactable. -/
inductive PwPageError where
  | timeoutError
  | notInteractableError
  deriving DecidableEq, Repr

/-- `extract_product_details` (`modules/1_get_data.py` lines 107-138): the
scroll and click on the specs control are NOT wrapped in any `try`; an
absent control makes `scroll_into_view_if_needed` time out and a
non-interactive one makes `click` raise, and the exception propagates.
Only when the click succeeds are the six tolerant label lookups
performed. -/
def extract_product_details (pg : PwProductPage) : Except PwPageError Details :=
  match pg.specsControl with
  | .absentControl => .error .timeoutError
  | .notInteractive => .error .notInteractableError
  | .present => .ok
    { vendor := pg.labelLookup "Виробник"
      color := pg.labelLookup "Колір"
      memory_volume := pg.labelLookup "Вбудована пам\u0027ять"
      series := pg.labelLookup "Модель"
      screen_diagonal := pg.labelLookup "Діагональ екрану"
      screen_resolution := pg.labelLookup "Роздільна здатність екрану" }

/-- `extract_photos` (`modules/1_get_data.py` lines 141-165): keep, in
document order, every `src` attribute that is present and non-empty. -/
def extract_photos (srcs : List (Option String)) : List String :=
  srcs.filterMap (fun s =>
    match s with
    | some u => if u ≠ "" then some u else none
    | none => none)

/-- The record assembled by `parse_product_page`. -/
structure ParsedProduct where
  basic : BasicInfo
  details : Details
  photos : List String
  specifications : SpecMap
  deriving DecidableEq, Repr

/-- `parse_product_page` (`modules/1_get_data.py` lines 250-270): basic
info, then product details, then photos, then specifications, with no
`try` around any step — an exception from `extract_product_details`
propagates and the photo and specification steps never run. -/
def parse_product_page (pg : PwProductPage) : Except PwPageError ParsedProduct :=
  let basic := extract_basic_info pg.basic
  match extract_product_details pg with
  | .error e => .error e
  | .ok d => .ok
    { basic := basic
      details := d
      photos := extract_photos pg.photoSrcs
      specifications := pw_extract_specifications pg.specCategories }

/-- A page whose specs control is absent but which has photos and a
specification table. -/
def c2page : PwProductPage :=
  { specsControl := .absentControl
    labelLookup := fun _ => some "Apple"
    basic := c4page
    photoSrcs := [some "a.jpg", some "b.jpg"]
    specCategories := [c6cat] }

/-- A page whose specs control is present but whose label lookups all
fail. -/
def c2pagePresent : PwProductPage :=
  { specsControl := .present
    labelLookup := fun _ => none
    basic := c4page
    photoSrcs := [some "a.jpg"]
    specCategories := [] }

/-- A page whose specs control is present but not interactable. -/
def c2pageStuck : PwProductPage :=
  { specsControl := .notInteractive
    labelLookup := fun _ => none
    basic := c4page
    photoSrcs := []
    specCategories := [] }

/-! ### Claim C8 — the missing-link gate of `main` -/

/-- How `main` finishes with respect to the product-URL check
(`modules/1_get_data.py` lines 322-330, `modules/1_get_listings.py`
lines 335-343). -/
inductive MainOutcome where
  | savedRecord (link : String)
  | noSaveLoggedError (msg : String)
  | raisedError (msg : String)
  deriving DecidableEq, Repr

/-- The `if product_url:` gate of `main`: a truthy URL leads to
`parse_product_page` + `save_product(product_url, data)`; a `None` or empty
URL only logs `"No product URL found from search results"` via
`logging.error` and `main` returns normally — no exception is raised and no
error status is returned. -/
def mainLinkGate (productUrl : Option String) : MainOutcome :=
  match productUrl with
  | some u =>
    if u ≠ "" then .savedRecord u
    else .noSaveLoggedError "No product URL found from search results"
  | none => .noSaveLoggedError "No product URL found from search results"

/-! ### Claim C9 — `save_product` upserts with full field replacement -/

/-- The non-link fields of a `Product` row, exactly the `defaults` mapping
passed to `Product.objects.update_or_create` by `save_product`
(`modules/1_get_data.py` lines 283-300, `modules/1_parse_data.py`
lines 212-229). -/
structure ProductData where
  title : Option String
  regular_price : Option String
  discount_price : Option String
  product_code : Option String
  vendor : Option String
  color : Option String
  memory_volume : Option String
  review_count : Option String
  series : Option String
  screen_diagonal : Option String
  screen_resolution : Option String
  photos : List String
  specifications : SpecMap
  deriving DecidableEq, Repr

/-- The product table, keyed by `link` (the `unique=True` URL field of
`parser_app/models.py`). -/
abbrev ProductTable : Type := List (String × ProductData)

/-- Django's `Product.objects.update_or_create(link=link, defaults=...)`:
when a row with this `link` exists, every field listed in `defaults` is
overwritten with the new value (and `save_product` lists every non-link
field); otherwise a new row is inserted.  Returns the new table and the
`created` flag. -/
def update_or_create (db : ProductTable) (link : String) (defaults : ProductData) :
    ProductTable × Bool :=
  if db.any (fun r => r.1 = link) then
    (db.map (fun r => if r.1 = link then (link, defaults) else r), false)
  else (db ++ [(link, defaults)], true)

/-- `save_product` (`modules/1_get_data.py` lines 273-305): upsert the
extracted data under its link. -/
def save_product (db : ProductTable) (link : String) (data : ProductData) :
    ProductTable :=
  (update_or_create db link data).1

/-- Lookup of the stored row for a link. -/
def dbFind (db : ProductTable) (link : String) : Option ProductData :=
  (db.find? (fun r => r.1 = link)).map (fun r => r.2)

/-- An initially stored record with `vendor = "Apple"`. -/
def oldRecord : ProductData :=
  { title := some "Phone X", regular_price := some "41999", discount_price := none
    product_code := some "ABC123", vendor := some "Apple", color := some "Black"
    memory_volume := some "128 GB", review_count := some "7", series := some "iPhone 15"
    screen_diagonal := none, screen_resolution := none
    photos := ["a.jpg"], specifications := [("Колір", some "Black")] }

/-- A re-extraction of the same link in which `vendor` resolved to
absent. -/
def newRecord : ProductData :=
  { oldRecord with vendor := none, color := none }

/-! ### Claim C10 — idempotence of the value-cleaning rule -/

/-! ## Theorems -/

theorem dictFind_dictInsert (m : SpecMap) (k : String) (v : Option String) :
    dictFind (dictInsert m k v) k = some v := by
  unfold dictInsert dictFind
  by_cases h : m.any (fun p => p.1 = k)
  · simp only [h, if_pos]
    induction m with
    | nil => simp at h
    | cons p rest ih =>
      by_cases hp : p.1 = k
      · simp [List.find?, hp]
      · simp only [List.any_cons] at h
        rcases Bool.or_eq_true_iff.mp h with h1 | h2
        · exact absurd (of_decide_eq_true h1) hp
        · simpa [List.find?, hp] using ih h2
  · simp only [h, if_neg, Bool.false_eq_true, not_false_iff]
    induction m with
    | nil => simp [List.find?]
    | cons p rest ih =>
      simp only [List.any_cons, Bool.or_eq_true_iff, not_or] at h
      have hp : ¬ p.1 = k := fun hh => h.1 (decide_eq_true hh)
      simp only [List.cons_append, List.find?]
      rw [decide_eq_false hp]
      exact ih (by simpa using h.2)

/-- Evaluation check used by several claims below. -/
theorem cleanValue_example :
    cleanValue (pyStrip "64 GB,  Black ,") = "64 GB, Black" := by decide

/-- Claim C3: for every specification row with exactly two spans,
`extract_specifications` stores an entry mapping the first span's trimmed
text to the second span's text cleaned by the no-break-space / split /
trim / drop-empty / rejoin rule; in particular the raw value
`"64\xa0GB,  Black ,"` is stored as `"64 GB, Black"`. -/
theorem spec_row_two_spans_stores_cleaned_value :
    (∀ (m : SpecMap) (l v : String),
      dictFind (processRowTexts m [l, v]) (pyStrip l)
        = some (some (cleanValue (pyStrip v))))
    ∧ cleanValue (pyStrip "64 GB,  Black ,") = "64 GB, Black" := by
  constructor
  · intro m l v
    exact dictFind_dictInsert m (pyStrip l) (some (cleanValue (pyStrip v)))
  · exact cleanValue_example

/-- Claim C7: a one-span row stores its trimmed label with an absent value;
a row with zero or at least three spans stores nothing (the mapping is
unchanged) and no error occurs. -/
theorem spec_row_other_span_counts :
    (∀ (m : SpecMap) (l : String),
      dictFind (processRowTexts m [l]) (pyStrip l) = some none)
    ∧ (∀ m : SpecMap, processRowTexts m [] = m)
    ∧ (∀ (m : SpecMap) (spans : List String), 3 ≤ spans.length →
        processRowTexts m spans = m) := by
  refine ⟨fun m l => dictFind_dictInsert m (pyStrip l) none, fun m => rfl, ?_⟩
  intro m spans h
  match spans with
  | a :: b :: c :: rest => rfl

/-- Witness for C7 at concrete inputs. -/
theorem spec_row_other_span_counts_witness :
    dictFind (processRowTexts [] ["Гарантія"]) (pyStrip "Гарантія") = some none
    ∧ processRowTexts [("a", none)] [] = [("a", none)]
    ∧ processRowTexts [] ["a", "b", "c"] = [] := by
  exact ⟨spec_row_other_span_counts.1 [] "Гарантія",
    spec_row_other_span_counts.2.1 [("a", none)],
    spec_row_other_span_counts.2.2 [] ["a", "b", "c"] (by decide)⟩

/-- Claim C5 counterexample: on `c5page` and the attribute label `"Колір"`,
the browser variants' `get_by_label` (XPath: first following-sibling span)
returns `"Sib"` while the static variant's `get_by_label`
(`find_next`: first span later in document order) returns `"Nested"` —
the three variants do not agree on every page. -/
theorem get_by_label_variants_disagree :
    pw_get_by_label c5page "Колір" = some "Sib"
    ∧ sel_get_by_label c5page "Колір" = some "Sib"
    ∧ bs_get_by_label c5page "Колір" = some "Nested" := by
  refine ⟨by decide, by decide, by decide⟩

/-- Claim C5 amended: the two browser-automation variants (Playwright and
Selenium) run the identical XPath lookup and return the same result on every
page and every label; the static-HTML variant matches the label exactly
(not by containment) and takes the next span in document order (not the
following sibling), so it can return a different value (see the
counterexample). -/
theorem browser_get_by_label_agree (root : Dom) (label : String) :
    pw_get_by_label root label = sel_get_by_label root label := by
  unfold pw_get_by_label sel_get_by_label
  cases xpathLabelSibling root label with
  | none => rfl
  | some n =>
    simp only
    by_cases h1 : pyStrip (textD n) = ""
    · simp [h1]
    · have h2 : textD n ≠ "" := by
        intro hh
        rw [hh] at h1
        exact h1 (by decide)
      simp [h1, h2]

/-- Claim C6 counterexample: in the browser variants, the (label, value)
pair nested two `div` levels below the row of `c6cat` IS matched as a row
and stored, so rows are not located only as direct children of the block's
single inner container. -/
theorem nested_pair_matched_as_row :
    dictFind (pw_extract_specifications [c6cat]) "DeepL" = some (some "DeepV")
    ∧ dictFind (pw_extract_specifications [c6cat]) "Memory" = some (some "64 GB") := by
  refine ⟨by decide, by decide⟩

/-- Claim C6 amended: in the static variant every located row is a direct
child of the block's first inner `div` container, and in every variant a
row's spans are read only as direct children (the span inside a non-`div`
wrapper of a row is never read); but in the browser variants the relative
XPath `.//div/div` also matches `div`s nested deeper, so a (label, value)
pair nested two `div` levels below a row is stored by the browser variants
and not by the static one. -/
theorem spec_rows_location_amended :
    (∀ (cat container : Dom), bsFirstDescDiv cat = some container →
      ∀ r ∈ bsCategoryRows cat, r ∈ childrenOf container)
    ∧ dictFind (pw_extract_specifications [c6catB]) "DeepL2" = some (some "DeepV2")
    ∧ dictFind (pw_extract_specifications [c6catB]) "SpanDeep" = none
    ∧ dictFind (bs_extract_specifications [c6catB]) "DeepL2" = none
    ∧ dictFind (bs_extract_specifications [c6catB]) "SpanDeep" = none
    ∧ dictFind (bs_extract_specifications [c6catB]) "L" = some (some "V") := by
  refine ⟨?_, by decide, by decide, by decide, by decide, by decide⟩
  intro cat container h r hr
  unfold bsCategoryRows at hr
  rw [h] at hr
  exact List.mem_of_mem_filter hr

/-- Witness for the amended C6 at the concrete block `c6catB`. -/
theorem spec_rows_location_amended_witness :
    rowB ∈ childrenOf containerB
    ∧ dictFind (pw_extract_specifications [c6catB]) "DeepL2" = some (some "DeepV2") := by
  refine ⟨spec_rows_location_amended.1 c6catB containerB rfl rowB ?_,
    spec_rows_location_amended.2.1⟩
  exact List.Mem.head _

/-- Claim C1 counterexample: the Selenium `safe_find_by_xpath` does NOT
return an absent result on every resolution error — a
`StaleElementReferenceException` raised while reading the located element's
text is outside the `except (NoSuchElementException, TimeoutException)`
clause and propagates to the caller. -/
theorem sel_safe_find_raises_on_stale_element :
    sel_safe_find_by_xpath (.raise .staleElementReferenceException)
      = .error .staleElementReferenceException := rfl

/-- Claim C1 amended: the Playwright accessor catches every exception and
returns absent on timeout, zero matches and any resolution error; the
static-HTML `safe` returns absent when the lookup chain resolves nothing;
the Selenium accessor returns absent on timeout (including zero matches)
and no-such-element errors, but any other resolution error propagates to
the caller. -/
theorem tolerant_accessor_amended :
    (∀ e : PwExc, pw_safe_find_by_xpath (.raise e) = .ok none)
    ∧ safe none = none
    ∧ (∀ e : SelExc, selCaught e = true →
        sel_safe_find_by_xpath (.raise e) = .ok none)
    ∧ (∀ e : SelExc, selCaught e = false →
        sel_safe_find_by_xpath (.raise e) = .error e) := by
  refine ⟨fun e => rfl, rfl, fun e he => ?_, fun e he => ?_⟩
  · simp [sel_safe_find_by_xpath, he]
  · simp [sel_safe_find_by_xpath, he]

/-- Witness for the amended C1 at concrete exceptions. -/
theorem tolerant_accessor_amended_witness :
    pw_safe_find_by_xpath (.raise .timeoutError) = .ok none
    ∧ sel_safe_find_by_xpath (.raise .timeoutException) = .ok none
    ∧ sel_safe_find_by_xpath (.raise .invalidSelectorException)
        = .error .invalidSelectorException := by
  exact ⟨tolerant_accessor_amended.1 .timeoutError,
    tolerant_accessor_amended.2.2.1 .timeoutException (by decide),
    tolerant_accessor_amended.2.2.2 .invalidSelectorException (by decide)⟩

/-- Claim C4 counterexample: on a page with both price nodes present whose
price texts use no-break-space thousands separators, the extracted
`regular_price` and `discount_price` still contain whitespace characters —
`replace(' ', '')` removes only ASCII spaces. -/
theorem price_fields_keep_nbsp_whitespace :
    (extract_basic_info c4page).regular_price = some "15 000 ₴"
    ∧ "15 000 ₴".data.any isPySpace = true
    ∧ (extract_basic_info c4page).discount_price = some "9 999 ₴"
    ∧ "9 999 ₴".data.any isPySpace = true := by
  refine ⟨by decide, by decide, by decide, by decide⟩

/-- Every character of `removeSpaces t` differs from the ASCII space. -/
theorem removeSpaces_all_no_space (t : String) :
    (removeSpaces t).data.all (fun c => c ≠ ' ') = true := by
  simp only [removeSpaces, List.all_eq_true]
  intro c hc
  exact (List.mem_filter.mp hc).2

/-- Claim C4 amended: the extracted price strings contain no ASCII space
(U+0020); whitespace other than the ASCII space (for example the no-break
space of the counterexample) is not removed. -/
theorem price_fields_no_ascii_space :
    (∀ (pg : BasicPage) (s : String),
      (extract_basic_info pg).regular_price = some s →
        s.data.all (fun c => c ≠ ' ') = true)
    ∧ (∀ (pg : BasicPage) (s : String),
      (extract_basic_info pg).discount_price = some s →
        s.data.all (fun c => c ≠ ' ') = true) := by
  have key : ∀ (o : Option String) (s : String),
      (match o with
        | some t => if t ≠ "" then some (removeSpaces t) else none
        | none => none) = some s →
      s.data.all (fun c => c ≠ ' ') = true := by
    intro o s h
    match o with
    | none => simp at h
    | some t =>
      by_cases ht : t = ""
      · simp [ht] at h
      · simp only [ht, ne_eq, not_false_iff, if_true, Option.some.injEq] at h
        rw [← h]
        exact removeSpaces_all_no_space t
  constructor
  · intro pg s h
    simp only [extract_basic_info] at h
    exact key (safeTextOf pg.regularPriceText) s h
  · intro pg s h
    simp only [extract_basic_info] at h
    exact key (safeTextOf pg.discountPriceText) s h

/-- Witness for the amended C4 at the concrete page `c4page`. -/
theorem price_fields_no_ascii_space_witness :
    "15 000 ₴".data.all (fun c => c ≠ ' ') = true
    ∧ "9 999 ₴".data.all (fun c => c ≠ ' ') = true := by
  exact ⟨price_fields_no_ascii_space.1 c4page "15 000 ₴" (by decide),
    price_fields_no_ascii_space.2 c4page "9 999 ₴" (by decide)⟩

/-- Claim C2 counterexample: on a page whose "show all specifications"
control is absent, `extract_product_details` does not return a map of six
absent fields — it raises, and `parse_product_page` propagates the
exception, so the photo and specification steps never execute. -/
theorem missing_specs_control_aborts_run :
    extract_product_details c2page = .error .timeoutError
    ∧ parse_product_page c2page = .error .timeoutError := ⟨rfl, rfl⟩

/-- Claim C2 amended: when the specs control is absent or non-interactive,
`extract_product_details` raises and the whole `parse_product_page` run
aborts with that exception (no photo or specification extraction); the six
fields all resolve to absent only in the run that successfully clicked the
control and then failed every label lookup. -/
theorem specs_control_failure_behavior :
    (∀ pg : PwProductPage, pg.specsControl = .absentControl →
      extract_product_details pg = .error .timeoutError
      ∧ parse_product_page pg = .error .timeoutError)
    ∧ (∀ pg : PwProductPage, pg.specsControl = .notInteractive →
      extract_product_details pg = .error .notInteractableError
      ∧ parse_product_page pg = .error .notInteractableError)
    ∧ (∀ pg : PwProductPage, pg.specsControl = .present →
      (∀ L, pg.labelLookup L = none) →
      extract_product_details pg = .ok ⟨none, none, none, none, none, none⟩) := by
  refine ⟨fun pg h => ?_, fun pg h => ?_, fun pg h hl => ?_⟩
  · constructor
    · simp [extract_product_details, h]
    · simp [parse_product_page, extract_product_details, h]
  · constructor
    · simp [extract_product_details, h]
    · simp [parse_product_page, extract_product_details, h]
  · simp [extract_product_details, h, hl]

/-- Witness for the amended C2 at concrete pages. -/
theorem specs_control_failure_behavior_witness :
    extract_product_details c2pageStuck = .error .notInteractableError
    ∧ extract_product_details c2pagePresent
        = .ok ⟨none, none, none, none, none, none⟩ := by
  exact ⟨(specs_control_failure_behavior.2.1 c2pageStuck rfl).1,
    specs_control_failure_behavior.2.2 c2pagePresent rfl (fun L => rfl)⟩

/-- Claim C8 counterexample: when the search flow yields no link, `main`
indeed produces no record and attempts no persistence call, but the failure
is only written to the log — `main` completes normally instead of
surfacing an explicit failure to its caller. -/
theorem missing_link_only_logged :
    mainLinkGate none
      = .noSaveLoggedError "No product URL found from search results"
    ∧ mainLinkGate none
      ≠ .raisedError "No product URL found from search results" := by
  exact ⟨rfl, by decide⟩

/-- Claim C8 amended: for every absent or empty product URL, no record is
parsed and no persistence call is attempted, and the failure is reported
through an error log entry; `main` then completes normally rather than
raising or returning an error to its caller. -/
theorem missing_link_gate :
    ∀ productUrl : Option String, (productUrl = none ∨ productUrl = some "") →
      mainLinkGate productUrl
        = .noSaveLoggedError "No product URL found from search results"
      ∧ ∀ link, mainLinkGate productUrl ≠ .savedRecord link := by
  rintro productUrl (h | h) <;> subst h
  · exact ⟨rfl, fun link => by simp [mainLinkGate]⟩
  · exact ⟨rfl, fun link => by simp [mainLinkGate]⟩

/-- Witness for the amended C8 at the empty-string URL. -/
theorem missing_link_gate_witness :
    mainLinkGate (some "")
      = .noSaveLoggedError "No product URL found from search results"
    ∧ mainLinkGate (some "") ≠ .savedRecord "x" := by
  exact ⟨(missing_link_gate (some "") (Or.inr rfl)).1,
    (missing_link_gate (some "") (Or.inr rfl)).2 "x"⟩

/-- After `save_product`, the row stored under `link` is exactly the new
data. -/
theorem dbFind_save_product (db : ProductTable) (link : String)
    (data : ProductData) :
    dbFind (save_product db link data) link = some data := by
  unfold save_product update_or_create dbFind
  by_cases h : db.any (fun r => r.1 = link)
  · simp only [h, if_pos]
    induction db with
    | nil => simp at h
    | cons r rest ih =>
      by_cases hr : r.1 = link
      · simp [List.find?, hr]
      · simp only [List.any_cons] at h
        rcases Bool.or_eq_true_iff.mp h with h1 | h2
        · exact absurd (of_decide_eq_true h1) hr
        · simpa [List.find?, hr] using ih h2
  · simp only [h, if_neg, Bool.false_eq_true, not_false_iff]
    induction db with
    | nil => simp [List.find?]
    | cons r rest ih =>
      simp only [List.any_cons, Bool.or_eq_true_iff, not_or] at h
      have hr : ¬ r.1 = link := fun hh => h.1 (decide_eq_true hh)
      simp only [List.cons_append, List.find?]
      rw [decide_eq_false hr]
      exact ih (by simpa using h.2)

/-- Claim C9: re-extracting the same link and upserting through
`save_product` replaces every non-link field wholesale; in particular a
vendor previously stored as `"Apple"` becomes absent when the new
extraction resolves it to absent. -/
theorem save_product_full_replace (db : ProductTable) (link : String)
    (old new : ProductData) (hstored : dbFind db link = some old)
    (hold : old.vendor = some "Apple") (hnew : new.vendor = none) :
    dbFind (save_product db link new) link = some new
    ∧ (dbFind (save_product db link new) link).map ProductData.vendor
        = some none := by
  refine ⟨dbFind_save_product db link new, ?_⟩
  rw [dbFind_save_product db link new]
  simp [Option.map, hnew]

/-- Witness for C9 at a concrete one-row table. -/
theorem save_product_full_replace_witness :
    dbFind (save_product [("https://brain.com.ua/p1.html", oldRecord)]
        "https://brain.com.ua/p1.html" newRecord) "https://brain.com.ua/p1.html"
      = some newRecord
    ∧ (dbFind (save_product [("https://brain.com.ua/p1.html", oldRecord)]
        "https://brain.com.ua/p1.html" newRecord) "https://brain.com.ua/p1.html").map
          ProductData.vendor = some none := by
  exact save_product_full_replace [("https://brain.com.ua/p1.html", oldRecord)]
    "https://brain.com.ua/p1.html" oldRecord newRecord (by decide) (by decide) (by decide)

theorem dropWhile_eq_self_of_head (p : Char → Bool) (l : List Char)
    (h : ∀ x ∈ l.head?, p x = false) : l.dropWhile p = l := by
  cases l with
  | nil => rfl
  | cons a as =>
    have := h a rfl
    simp [List.dropWhile_cons, this]

theorem head?_dropWhile_false (p : Char → Bool) (l : List Char) :
    ∀ x ∈ (l.dropWhile p).head?, p x = false := by
  induction l with
  | nil => intro x hx; simp at hx
  | cons a as ih =>
    intro x hx
    by_cases hp : p a
    · rw [List.dropWhile_cons, if_pos hp] at hx
      exact ih x hx
    · rw [List.dropWhile_cons, if_neg hp] at hx
      simp at hx
      rw [← hx]
      simpa using hp

theorem mem_dropWhile (p : Char → Bool) (l : List Char) (a : Char)
    (h : a ∈ l.dropWhile p) : a ∈ l := by
  induction l with
  | nil => simp at h
  | cons b bs ih =>
    by_cases hp : p b
    · rw [List.dropWhile_cons, if_pos hp] at h
      exact List.mem_cons_of_mem b (ih h)
    · rw [List.dropWhile_cons, if_neg hp] at h
      exact h

theorem getLast?_dropWhile (p : Char → Bool) (l : List Char)
    (h : l.dropWhile p ≠ []) : (l.dropWhile p).getLast? = l.getLast? := by
  induction l with
  | nil => simp at h
  | cons a as ih =>
    by_cases hp : p a
    · rw [List.dropWhile_cons, if_pos hp] at h ⊢
      rw [ih h]
      have has : as ≠ [] := by
        intro hh
        rw [hh] at h
        simp at h
      cases as with
      | nil => simp at has
      | cons b bs => simp [List.getLast?_cons_cons]
    · rw [List.dropWhile_cons, if_neg hp]

theorem pyStripL_head (l : List Char) :
    ∀ x ∈ (pyStripL l).head?, isPySpace x = false := by
  intro x hx
  unfold pyStripL at hx
  rw [List.head?_reverse] at hx
  by_cases hu : ((l.dropWhile isPySpace).reverse.dropWhile isPySpace) = []
  · rw [hu] at hx
    simp at hx
  · rw [getLast?_dropWhile _ _ hu, List.getLast?_reverse] at hx
    exact head?_dropWhile_false isPySpace l x hx

theorem pyStripL_idem (l : List Char) : pyStripL (pyStripL l) = pyStripL l := by
  have h1 : (pyStripL l).dropWhile isPySpace = pyStripL l :=
    dropWhile_eq_self_of_head _ _ (pyStripL_head l)
  show ((((pyStripL l).dropWhile isPySpace).reverse).dropWhile isPySpace).reverse = pyStripL l
  rw [h1]
  have h2 : (pyStripL l).reverse = (l.dropWhile isPySpace).reverse.dropWhile isPySpace := by
    unfold pyStripL
    rw [List.reverse_reverse]
  rw [h2]
  have h3 : ((l.dropWhile isPySpace).reverse.dropWhile isPySpace).dropWhile isPySpace
      = (l.dropWhile isPySpace).reverse.dropWhile isPySpace :=
    dropWhile_eq_self_of_head _ _ (head?_dropWhile_false isPySpace _)
  rw [h3]
  unfold pyStripL
  rfl

theorem pyStripL_cons_space (c : Char) (l : List Char) (h : isPySpace c = true) :
    pyStripL (c :: l) = pyStripL l := by
  unfold pyStripL
  rw [List.dropWhile_cons, if_pos h]

theorem mem_pyStripL (a : Char) (l : List Char) (h : a ∈ pyStripL l) : a ∈ l := by
  unfold pyStripL at h
  rw [List.mem_reverse] at h
  have h2 := mem_dropWhile _ _ _ h
  rw [List.mem_reverse] at h2
  exact mem_dropWhile _ _ _ h2

theorem pyStripL_nil : pyStripL [] = [] := rfl

theorem splitComma_ne_nil (l : List Char) : splitComma l ≠ [] := by
  induction l with
  | nil => simp [splitComma]
  | cons c rest ih =>
    by_cases hc : c = ','
    · simp [splitComma, hc]
    · simp only [splitComma, hc, if_neg, if_false]
      cases h : splitComma rest with
      | nil => simp
      | cons p ps => simp

theorem mem_mem_splitComma (l : List Char) (q : List Char) (c : Char)
    (hq : q ∈ splitComma l) (hc : c ∈ q) : c ∈ l := by
  induction l generalizing q with
  | nil =>
    simp [splitComma] at hq
    rw [hq] at hc
    simp at hc
  | cons a rest ih =>
    by_cases ha : a = ','
    · rw [splitComma, if_pos ha] at hq
      rcases List.mem_cons.mp hq with h1 | h2
      · rw [h1] at hc; simp at hc
      · exact List.mem_cons_of_mem a (ih q h2 hc)
    · rw [splitComma, if_neg ha] at hq
      cases hsp : splitComma rest with
      | nil => exact absurd hsp (splitComma_ne_nil rest)
      | cons p ps =>
        rw [hsp] at hq
        rcases List.mem_cons.mp hq with h1 | h2
        · rw [h1] at hc
          rcases List.mem_cons.mp hc with h3 | h4
          · rw [h3]; exact List.mem_cons_self a rest
          · exact List.mem_cons_of_mem a
              (ih p (hsp ▸ List.mem_cons_self p ps) h4)
        · exact List.mem_cons_of_mem a
            (ih q (hsp ▸ List.mem_cons_of_mem p h2) hc)

theorem no_comma_splitComma (l : List Char) (q : List Char)
    (hq : q ∈ splitComma l) : ∀ c ∈ q, ¬ c = ',' := by
  induction l generalizing q with
  | nil =>
    simp [splitComma] at hq
    rw [hq]
    intro c hc
    simp at hc
  | cons a rest ih =>
    intro c hc
    by_cases ha : a = ','
    · rw [splitComma, if_pos ha] at hq
      rcases List.mem_cons.mp hq with h1 | h2
      · rw [h1] at hc; simp at hc
      · exact ih q h2 c hc
    · rw [splitComma, if_neg ha] at hq
      cases hsp : splitComma rest with
      | nil => exact absurd hsp (splitComma_ne_nil rest)
      | cons p ps =>
        rw [hsp] at hq
        rcases List.mem_cons.mp hq with h1 | h2
        · rw [h1] at hc
          rcases List.mem_cons.mp hc with h3 | h4
          · rw [h3]; exact ha
          · exact ih p (hsp ▸ List.mem_cons_self p ps) c h4
        · exact ih q (hsp ▸ List.mem_cons_of_mem p h2) c hc

theorem splitComma_append_nocomma (p : List Char) (hp : ∀ c ∈ p, ¬ c = ',') :
    ∀ l : List Char, ∃ h t, splitComma l = h :: t
      ∧ splitComma (p ++ l) = (p ++ h) :: t := by
  induction p with
  | nil =>
    intro l
    cases hs : splitComma l with
    | nil => exact absurd hs (splitComma_ne_nil l)
    | cons h t => exact ⟨h, t, rfl, by simpa using hs⟩
  | cons c p' ih =>
    intro l
    have hc : ¬ c = ',' := hp c (List.mem_cons_self c p')
    obtain ⟨h, t, hl, hpl⟩ := ih (fun d hd => hp d (List.mem_cons_of_mem c hd)) l
    refine ⟨h, t, hl, ?_⟩
    rw [List.cons_append, splitComma, if_neg hc, hpl]
    rfl

theorem splitComma_single (p : List Char) (hp : ∀ c ∈ p, ¬ c = ',') :
    splitComma p = [p] := by
  obtain ⟨h, t, hl, hpl⟩ := splitComma_append_nocomma p hp []
  have h1 : h = [] ∧ t = [] := by
    have : splitComma ([] : List Char) = [[]] := rfl
    rw [this] at hl
    exact ⟨(List.cons.injEq _ _ _ _ ▸ hl).1.symm, (List.cons.injEq _ _ _ _ ▸ hl).2.symm⟩
  rw [List.append_nil] at hpl
  rw [hpl, h1.1, h1.2, List.append_nil]

theorem mem_joinCommaSpace (ps : List (List Char)) (c : Char)
    (hc : c ∈ joinCommaSpace ps) :
    (∃ q ∈ ps, c ∈ q) ∨ c = ',' ∨ c = ' ' := by
  induction ps with
  | nil => simp [joinCommaSpace] at hc
  | cons p rest ih =>
    cases rest with
    | nil =>
      rw [joinCommaSpace] at hc
      exact Or.inl ⟨p, List.mem_cons_self p [], hc⟩
    | cons q r =>
      rw [joinCommaSpace] at hc
      rcases List.mem_append.mp hc with h1 | h2
      · exact Or.inl ⟨p, List.mem_cons_self p _, h1⟩
      · rcases List.mem_cons.mp h2 with h3 | h4
        · exact Or.inr (Or.inl h3)
        · rcases List.mem_cons.mp h4 with h5 | h6
          · exact Or.inr (Or.inr h5)
          · rcases ih h6 with ⟨w, hw, hcw⟩ | h7
            · exact Or.inl ⟨w, List.mem_cons_of_mem p hw, hcw⟩
            · exact Or.inr h7

theorem replaceNbsp_no_nbsp (l : List Char) :
    ∀ c ∈ replaceNbspL l, ¬ c = '\u00A0' := by
  intro c hc
  rcases List.mem_map.mp hc with ⟨a, _, ha⟩
  by_cases h : a = '\u00A0'
  · rw [← ha, if_pos h]
    decide
  · rw [← ha, if_neg h]
    exact h

theorem replaceNbsp_eq_self (l : List Char) (h : ∀ c ∈ l, ¬ c = '\u00A0') :
    replaceNbspL l = l := by
  unfold replaceNbspL
  conv_rhs => rw [← List.map_id l]
  apply List.map_congr_left
  intro a ha
  simp only [if_neg (h a ha), id]

theorem parts_roundtrip (ps : List (List Char))
    (h : ∀ p ∈ ps, pyStripL p = p ∧ p ≠ [] ∧ ∀ c ∈ p, ¬ c = ',') :
    ((splitComma (joinCommaSpace ps)).map pyStripL).filter (fun q => q ≠ []) = ps := by
  induction ps with
  | nil => rfl
  | cons p rest ih =>
    have hp := h p (List.mem_cons_self p rest)
    cases rest with
    | nil =>
      show ((splitComma (joinCommaSpace [p])).map pyStripL).filter (fun q => q ≠ []) = [p]
      rw [joinCommaSpace, splitComma_single p hp.2.2]
      simp only [List.map_cons, List.map_nil, hp.1]
      rw [List.filter_cons_of_pos (by simpa using hp.2.1)]
      rfl
    | cons q r =>
      rw [joinCommaSpace]
      obtain ⟨hh, tt, hl, hpl⟩ :=
        splitComma_append_nocomma p hp.2.2 (',' :: ' ' :: joinCommaSpace (q :: r))
      have hcomma : splitComma (',' :: ' ' :: joinCommaSpace (q :: r))
          = [] :: splitComma (' ' :: joinCommaSpace (q :: r)) := by
        rw [splitComma, if_pos rfl]
      rw [hcomma] at hl
      have hh0 : hh = [] := (List.cons.injEq _ _ _ _ ▸ hl).1.symm
      have htt : tt = splitComma (' ' :: joinCommaSpace (q :: r)) :=
        (List.cons.injEq _ _ _ _ ▸ hl).2.symm
      obtain ⟨h2, t2, hs⟩ : ∃ h2 t2, splitComma (joinCommaSpace (q :: r)) = h2 :: t2 := by
        cases hs : splitComma (joinCommaSpace (q :: r)) with
        | nil => exact absurd hs (splitComma_ne_nil _)
        | cons h2 t2 => exact ⟨h2, t2, rfl⟩
      have hspace : splitComma (' ' :: joinCommaSpace (q :: r)) = (' ' :: h2) :: t2 := by
        rw [splitComma, if_neg (by decide), hs]
      rw [hh0, List.append_nil, htt, hspace] at hpl
      rw [hpl]
      simp only [List.map_cons]
      rw [hp.1, pyStripL_cons_space ' ' h2 (by decide)]
      rw [List.filter_cons_of_pos (by simpa using hp.2.1)]
      have hrest := ih (fun x hx => h x (List.mem_cons_of_mem p hx))
      rw [hs] at hrest
      simp only [List.map_cons] at hrest
      rw [hrest]

theorem cleanL_idem (v : List Char) : cleanL (cleanL v) = cleanL v := by
  have hps : ∀ p ∈ ((splitComma (replaceNbspL v)).map pyStripL).filter (fun q => q ≠ []),
      pyStripL p = p ∧ p ≠ [] ∧ (∀ c ∈ p, ¬ c = ',') ∧ (∀ c ∈ p, ¬ c = ' ') := by
    intro p hp
    have hmem := List.mem_of_mem_filter hp
    have hne : p ≠ [] := by simpa using List.of_mem_filter hp
    rcases List.mem_map.mp hmem with ⟨q, hq, hpq⟩
    refine ⟨hpq ▸ pyStripL_idem q, hne, ?_, ?_⟩
    · intro c hc
      exact no_comma_splitComma _ q hq c (mem_pyStripL c q (hpq ▸ hc))
    · intro c hc
      exact replaceNbsp_no_nbsp v c
        (mem_mem_splitComma _ q c hq (mem_pyStripL c q (hpq ▸ hc)))
  have hdef : cleanL v = joinCommaSpace
      (((splitComma (replaceNbspL v)).map pyStripL).filter (fun q => q ≠ [])) := rfl
  have hnb : replaceNbspL (cleanL v) = cleanL v := by
    apply replaceNbsp_eq_self
    intro c hc
    rw [hdef] at hc
    rcases mem_joinCommaSpace _ c hc with ⟨w, hw, hcw⟩ | h1 | h2
    · exact (hps w hw).2.2.2 c hcw
    · rw [h1]; decide
    · rw [h2]; decide
  show joinCommaSpace
      (((splitComma (replaceNbspL (cleanL v))).map pyStripL).filter (fun q => q ≠ []))
    = cleanL v
  rw [hnb]
  conv_lhs => rw [hdef]
  rw [parts_roundtrip _ (fun p hp => ⟨(hps p hp).1, (hps p hp).2.1, (hps p hp).2.2.1⟩)]
  exact hdef.symm

/-- Claim C10: the specification value-cleaning rule is idempotent — applying
the replace / split / trim / drop-empty / rejoin cleaning to its own output
returns that output unchanged. -/
theorem cleanValue_idempotent (s : String) :
    cleanValue (cleanValue s) = cleanValue s := by
  show (⟨cleanL (cleanValue s).data⟩ : String) = ⟨cleanL s.data⟩
  have h : (cleanValue s).data = cleanL s.data := rfl
  rw [h, cleanL_idem]
